import Mathlib

/-!
Verification of the Nexus URL shortener core

Shallow embedding of the Python sources (`app/database.py`, `app/services.py`,
`app/main.py`, `app/middleware.py`) and proofs about the embedded operations.

Modelling conventions:
* SQLAlchemy rows become Lean structures; the database session becomes an
  explicit `DB` state (a list of `URL` rows and a list of `Click` rows,
  in insertion order, as SQLite returns them for these unordered queries).
* Python `Optional[str]` string columns are modelled as `String`, with `""`
  standing for `None`; Python truthiness on such a field is `≠ ""`.
* `random.choice`-based code generation is modelled by a stream
  `gen : Nat → String` giving the successive candidates produced by
  `URLService.generate_short_code`; the `while True` retry loop is modelled
  with explicit fuel, `none` meaning the loop has not terminated within the
  given number of iterations.
* external library calls (`validators.url`, `user_agents.parse`) are
  modelled as function parameters.
* timestamps are `Int` (Unix seconds, as `int(time.time())` in the source).
-/

namespace Nexus

/-- Row of the `urls` table (`app/database.py`, class `URL`). -/
structure URL where
  id : Nat
  original_url : String
  short_code : String
  created_at : Int
  click_count : Nat
  is_active : Bool
  creator_ip : String
deriving Repr, DecidableEq

/-- Row of the `clicks` table (`app/database.py`, class `Click`).
`""` models SQL `NULL` / Python `None` for the optional string columns. -/
structure Click where
  id : Nat
  short_code : String
  clicked_at : Int
  ip_address : String
  user_agent : String
  referer : String
  country : String
  city : String
deriving Repr, DecidableEq

/-- The database session state: both tables, rows in insertion order. -/
structure DB where
  urls : List URL
  clicks : List Click
deriving Repr, DecidableEq

/-- Mirror of `db.query(URL).filter(URL.short_code == code).first()`:
first row whose `short_code` equals `code`, regardless of `is_active`. -/
def firstWithCode (db : DB) (code : String) : Option URL :=
  db.urls.find? (fun u => u.short_code == code)

/-- Mirror of `URLService.get_url_by_code` (`app/services.py`):
`db.query(URL).filter(URL.short_code == short_code, URL.is_active == True).first()`. -/
def get_url_by_code (db : DB) (short_code : String) : Option URL :=
  db.urls.find? (fun u => u.short_code == short_code && u.is_active)

/-- The generation/existence-check loop of `URLService.create_short_url`
(`while True: short_code = generate_short_code(); if not exists: break`).
`k` is the index into the candidate stream, `fuel` bounds the modelled
iterations; `none` means the loop did not terminate within `fuel` rounds. -/
def genLoop (db : DB) (gen : Nat → String) : Nat → Nat → Option String
  | _, 0 => none
  | k, fuel + 1 =>
    let c := gen k
    if (firstWithCode db c).isSome then genLoop db gen (k + 1) fuel
    else some c

/-- Entry into the retry loop at candidate index 0. -/
def findFreshCode (db : DB) (gen : Nat → String) (fuel : Nat) : Option String :=
  genLoop db gen 0 fuel

/-- Python truthiness of the `custom_code: Optional[str]` argument:
`if custom_code:` is false for `None` and for the empty string. -/
def pyTruthy : Option String → Bool
  | none => false
  | some s => !(s == "")

/-- Outcome of `URLService.create_short_url`. `invalidUrl` and
`codeConflict` are the two `ValueError`s; `loopNotDone` is the fuel
artefact standing for the `while True` loop still running. -/
inductive CreateResult where
  | ok (db : DB) (u : URL)
  | invalidUrl
  | codeConflict
  | loopNotDone
deriving Repr, DecidableEq

/-- The freshly inserted row (`URL(original_url=..., short_code=..., creator_ip=...)`
with column defaults `click_count=0`, `is_active=True` and autoincrement id). -/
def mkURL (db : DB) (original_url short_code : String) (now : Int)
    (creator_ip : String) : URL :=
  { id := db.urls.length + 1
    original_url := original_url
    short_code := short_code
    created_at := now
    click_count := 0
    is_active := true
    creator_ip := creator_ip }

/-- Mirror of `URLService.create_short_url` (`app/services.py`).
`validatorsUrl` models `validators.url`; `gen` the candidate stream of
`generate_short_code`; `fuel` bounds the modelled retry loop. -/
def create_short_url (validatorsUrl : String → Bool) (gen : Nat → String)
    (fuel : Nat) (now : Int) (db : DB) (original_url : String)
    (custom_code : Option String) (creator_ip : String) : CreateResult :=
  if !(validatorsUrl original_url) then .invalidUrl
  else if pyTruthy custom_code then
    let cc := custom_code.getD ""
    if (firstWithCode db cc).isSome then .codeConflict
    else
      let u := mkURL db original_url cc now creator_ip
      .ok { db with urls := db.urls ++ [u] } u
  else
    match findFreshCode db gen fuel with
    | none => .loopNotDone
    | some c =>
      let u := mkURL db original_url c now creator_ip
      .ok { db with urls := db.urls ++ [u] } u

/-- All `short_code` values in the store are pairwise distinct. -/
def codesNodup (db : DB) : Prop :=
  (db.urls.map (fun u => u.short_code)).Nodup

instance (db : DB) : Decidable (codesNodup db) := by
  unfold codesNodup; infer_instance

/-- One creation request, carrying its own candidate stream and fuel
(each Python call draws fresh randomness). -/
structure CreateReq where
  original_url : String
  custom_code : Option String
  creator_ip : String
  gen : Nat → String
  fuel : Nat
  now : Int

/-- The state transition of one `create_short_url` call: on any failure the
session state is unchanged (the `ValueError`s are raised before `db.add`). -/
def applyCreate (validatorsUrl : String → Bool) (db : DB) (r : CreateReq) : DB :=
  match create_short_url validatorsUrl r.gen r.fuel r.now db r.original_url
      r.custom_code r.creator_ip with
  | .ok db' _ => db'
  | _ => db

/-- A sequence of create operations applied in order. -/
def runCreates (validatorsUrl : String → Bool) (db : DB)
    (reqs : List CreateReq) : DB :=
  reqs.foldl (applyCreate validatorsUrl) db

/-- Core of `URLService.increment_click_count` on the rows list: bump `click_count`
of the first row whose code matches (`first()` + `url.click_count += 1`);
no-op when no row matches. -/
def bumpFirst : List URL → String → List URL
  | [], _ => []
  | u :: us, code =>
    if u.short_code == code then
      { u with click_count := u.click_count + 1 } :: us
    else u :: bumpFirst us code

/-- Mirror of `URLService.increment_click_count` (`app/services.py`). -/
def increment_click_count (db : DB) (short_code : String) : DB :=
  { db with urls := bumpFirst db.urls short_code }

/-- Mirror of `AnalyticsService.track_click` (`app/services.py`): inserts a `Click`
row (browser string produced by `user_agents.parse`, modelled by `parseUA`;
country/city fixed to "Unknown") and then increments the URL's counter. -/
def track_click (parseUA : String → String) (now : Int) (db : DB)
    (short_code ip_address user_agent referer : String) : DB :=
  let click : Click :=
    { id := db.clicks.length + 1
      short_code := short_code
      clicked_at := now
      ip_address := ip_address
      user_agent := parseUA user_agent
      referer := referer
      country := "Unknown"
      city := "Unknown" }
  increment_click_count { db with clicks := db.clicks ++ [click] } short_code

/-- Response of the `GET /{short_code}` endpoint as far as the claims
observe it: a 302 with its Location, or the 404 `HTTPException`. -/
inductive RedirectResult where
  | redirect302 (location : String)
  | notFound404
deriving Repr, DecidableEq

/-- Mirror of `redirect_url` (`app/main.py`): look the code up via
`URLService.get_url_by_code`; on miss raise 404; on hit run
`AnalyticsService.track_click` inside `try ... except Exception: pass` and
return the 302. `trackRaises` models an arbitrary exception anywhere inside
the tracking call (the swallowed exception leaves the modelled session
state unchanged; no claim observes a partially applied tracking write). -/
def redirect_url (parseUA : String → String) (now : Int) (trackRaises : Bool)
    (db : DB) (short_code ip_address user_agent referer : String) :
    DB × RedirectResult :=
  match get_url_by_code db short_code with
  | none => (db, .notFound404)
  | some u =>
    let db' :=
      if trackRaises then db
      else track_click parseUA now db short_code ip_address user_agent referer
    (db', .redirect302 u.original_url)

/-- Runs `N` successive redirect requests against one code, collecting the
responses (tracking succeeds on each, as in claim C2's scenario). -/
def redirectN (parseUA : String → String) (now : Int)
    (short_code ip_address user_agent referer : String) :
    Nat → DB → DB × List RedirectResult
  | 0, db => (db, [])
  | n + 1, db =>
    let r := redirect_url parseUA now false db short_code ip_address user_agent referer
    let rest := redirectN parseUA now short_code ip_address user_agent referer n r.1
    (rest.1, r.2 :: rest.2)

/-- Distinct elements of a list in order of first occurrence: the iteration
order of a Python `Counter` / `dict` built from the list. -/
def firstOccs {α : Type} [DecidableEq α] : List α → List α
  | [] => []
  | x :: xs => x :: (firstOccs xs).filter (fun y => y != x)

/-- Model of `collections.Counter(l)` as an association list in insertion order. -/
def counterList {α : Type} [DecidableEq α] (l : List α) : List (α × Nat) :=
  (firstOccs l).map (fun v => (v, l.count v))

/-- The ordering used by `Counter.most_common`: descending by count
(`sorted(..., key=count, reverse=True)`, a stable sort). -/
def byCountDesc {α : Type} (a b : α × Nat) : Prop := b.2 ≤ a.2

instance {α : Type} : DecidableRel (byCountDesc (α := α)) :=
  fun a b => inferInstanceAs (Decidable (b.2 ≤ a.2))

instance {α : Type} : IsTotal (α × Nat) byCountDesc :=
  ⟨fun a b => le_total b.2 a.2⟩

instance {α : Type} : IsTrans (α × Nat) byCountDesc :=
  ⟨fun _ _ _ h1 h2 => le_trans h2 h1⟩

/-- Model of `Counter(l).most_common(n)`: entries in insertion order, stably sorted
descending by count (insertion into a sorted-descending list after all
entries of greater-or-equal count is exactly a stable sort), first `n`. -/
def mostCommon {α : Type} [DecidableEq α] (n : Nat) (l : List α) : List (α × Nat) :=
  (List.insertionSort byCountDesc (counterList l)).take n

/-- The analytics summary dict returned by `AnalyticsService.get_analytics`.
The `{"country": k, "count": v}`-style dicts are modelled as pairs. -/
structure Analytics where
  total_clicks : Nat
  unique_ips : Nat
  top_countries : List (String × Nat)
  top_referrers : List (String × Nat)
  click_history : List (Int × Nat)
  browser_stats : List (String × Nat)
deriving Repr, DecidableEq

/-- Mirror of `AnalyticsService.get_analytics` (`app/services.py`). Calendar dates in
`click_history` are abstracted to UTC day numbers (`clicked_at / 86400`;
ISO date keys sort the same way chronologically); no claim concerns this
field. Python truthiness filters (`if click.country` etc.) become `!= ""`. -/
def get_analytics (now : Int) (db : DB) (short_code : String) : Analytics :=
  let clicks := db.clicks.filter (fun c => c.short_code == short_code)
  if clicks.isEmpty then
    { total_clicks := 0, unique_ips := 0, top_countries := [],
      top_referrers := [], click_history := [], browser_stats := [] }
  else
    let countries := (clicks.map (fun c => c.country)).filter (fun s => s != "")
    let referrers := (clicks.map (fun c => c.referer)).filter (fun s => s != "")
    let browsers := (clicks.map (fun c => c.user_agent)).filter (fun s => s != "")
    let recent := clicks.filter (fun c => now - 30 * 86400 ≤ c.clicked_at)
    let days := recent.map (fun c => c.clicked_at / 86400)
    { total_clicks := clicks.length
      unique_ips :=
        (firstOccs ((clicks.map (fun c => c.ip_address)).filter (fun s => s != ""))).length
      top_countries := mostCommon 5 countries
      top_referrers := mostCommon 5 referrers
      click_history :=
        (List.insertionSort (fun a b : Int => a ≤ b) (firstOccs days)).map
          (fun d => (d, days.count d))
      browser_stats := mostCommon 5 browsers }

/-- The `GET /api/analytics/{short_code}` endpoint (`app/main.py`,
`get_analytics` route): 404 unless `get_url_by_code` finds an active row. -/
def api_get_analytics (now : Int) (db : DB) (short_code : String) :
    Except Nat Analytics :=
  match get_url_by_code db short_code with
  | none => .error 404
  | some _ => .ok (get_analytics now db short_code)

/-- Spec-side characterization of one top-5 table of §4.4 / claim C7
(stated from the spec's words, to be compared with `mostCommon`):
at most five entries, each a value occurring in `values` paired with its
frequency, ordered by descending frequency with ties broken by first
occurrence in `values`, and containing only most-frequent values (any value
left out is no more frequent than any listed entry). -/
def TopFiveSpec {α : Type} [DecidableEq α] (values : List α)
    (out : List (α × Nat)) : Prop :=
  out.length ≤ 5 ∧
  (∀ p ∈ out, p.1 ∈ values ∧ p.2 = values.count p.1) ∧
  out.Pairwise (fun a b =>
    b.2 < a.2 ∨ (a.2 = b.2 ∧ values.indexOf a.1 < values.indexOf b.1)) ∧
  (∀ v ∈ values, v ∉ out.map Prod.fst → ∀ q ∈ out, values.count v ≤ q.2)

/-- Mirror of `RateLimiter._check_memory_rate_limit` (`app/middleware.py`) acting on
one client's stored timestamp list: prune entries at or before
`window_start`, append the current timestamp, then flag 429 when the stored
count exceeds `max_requests`. Returns (new stored list, rejected?). -/
def check_memory_rate_limit (requests : List Int)
    (current_time window_start : Int) (max_requests : Nat) :
    List Int × Bool :=
  let cleaned := requests.filter (fun r => window_start < r)
  let updated := cleaned ++ [current_time]
  (updated, decide (max_requests < updated.length))

/-- One in-memory check folded over (state, collected rejection flags):
the caller passes `window_start = current_time - window_seconds`. -/
def memStep (window_seconds : Int) (max_requests : Nat)
    (acc : List Int × List Bool) (t : Int) : List Int × List Bool :=
  let r := check_memory_rate_limit acc.1 t (t - window_seconds) max_requests
  (r.1, acc.2 ++ [r.2])

/-- A sequence of in-memory checks for one client starting from an empty
stored list, each at its own `current_time`. Returns the final stored list
and the per-request rejection flags. -/
def run_memory_checks (window_seconds : Int) (max_requests : Nat)
    (times : List Int) : List Int × List Bool :=
  times.foldl (memStep window_seconds max_requests) ([], [])

/-- State of the `RateLimiter` object (`app/middleware.py`). In `__init__`
the `memory_store` attribute is assigned only in the `except` branch, so on
the normal path (`redis.from_url` succeeded — it does not connect eagerly)
the attribute does not exist: modelled as `none`. -/
structure RateLimiter where
  redis_available : Bool
  memory_store : Option (List (String × List Int))
deriving Repr, DecidableEq

/-- State after `RateLimiter.__init__`, normal path: client object created,
`redis_available = True`, `memory_store` never assigned. -/
def rateLimiterInit : RateLimiter := ⟨true, none⟩

/-- State after `RateLimiter.__init__`, `except` path: `redis_available = False`,
`memory_store = {}`. -/
def rateLimiterInitFallback : RateLimiter := ⟨false, some []⟩

/-- Outcome of the Redis pipeline in `check_rate_limit`: either the zcard
request count, or a raised `redis.RedisError`. -/
inductive RedisOutcome where
  | ok (request_count : Nat)
  | redisError
deriving Repr, DecidableEq

/-- What the caller of `check_rate_limit` observes: normal return, the 429
`HTTPException`, or an uncaught `AttributeError` (reading the never-assigned
`self.memory_store`). -/
inductive LimiterOutcome where
  | allowed
  | http429
  | attributeError
deriving Repr, DecidableEq

/-- Reads `self.memory_store[client_ip]["requests"]` after the
`if client_ip not in self.memory_store` guard: `[]` for a fresh client. -/
def memGet (store : List (String × List Int)) (k : String) : List Int :=
  match store.find? (fun p => p.1 == k) with
  | some p => p.2
  | none => []

/-- Dict update `self.memory_store[client_ip]["requests"] = ...`. -/
def memSet (store : List (String × List Int)) (k : String) (v : List Int) :
    List (String × List Int) :=
  match store.find? (fun p => p.1 == k) with
  | some _ => store.map (fun p => if p.1 == k then (k, v) else p)
  | none => store ++ [(k, v)]

/-- The call `self._check_memory_rate_limit(...)` as it behaves on the
object state: reading `self.memory_store` raises `AttributeError` when the
attribute was never assigned (normal-`__init__` path). -/
def memory_fallback (rl : RateLimiter) (client_ip : String)
    (current_time window_start : Int) (max_requests : Nat) :
    RateLimiter × LimiterOutcome :=
  match rl.memory_store with
  | none => (rl, .attributeError)
  | some store =>
    let r := check_memory_rate_limit (memGet store client_ip) current_time
      window_start max_requests
    ({ rl with memory_store := some (memSet store client_ip r.1) },
     if r.2 then .http429 else .allowed)

/-- Mirror of `RateLimiter.check_rate_limit` (`app/middleware.py`): on the Redis path
a raised `redis.RedisError` is caught and `_check_memory_rate_limit` is
called; anything that call raises (429 or `AttributeError`) propagates. -/
def check_rate_limit (rl : RateLimiter) (redis : RedisOutcome)
    (client_ip : String) (current_time : Int) (max_requests : Nat)
    (window_seconds : Int) : RateLimiter × LimiterOutcome :=
  let window_start := current_time - window_seconds
  if rl.redis_available then
    match redis with
    | .ok request_count =>
      (rl, if max_requests < request_count then .http429 else .allowed)
    | .redisError =>
      memory_fallback rl client_ip current_time window_start max_requests
  else
    memory_fallback rl client_ip current_time window_start max_requests

/-- Sample store holding one deactivated row (for concrete instantiations). -/
def sampleInactiveDB : DB :=
  { urls := [{ id := 1, original_url := "https://a.example/", short_code := "old111",
               created_at := 0, click_count := 3, is_active := false, creator_ip := "" }],
    clicks := [] }

/-- Two concrete creation requests: one generated (whose first candidate
collides with the deactivated row's code) and one custom. -/
def sampleReqs : List CreateReq :=
  [⟨"https://b.example/", none, "9.9.9.9",
      fun k => if k = 0 then "old111" else "new222", 5, 10⟩,
   ⟨"https://c.example/", some "cust33", "9.9.9.9", fun _ => "zzzzzz", 5, 11⟩]

/-- Sample active row and store for the redirect claims. -/
def sampleURL : URL :=
  { id := 1, original_url := "https://t.example/", short_code := "abc123",
    created_at := 0, click_count := 0, is_active := true, creator_ip := "" }

def sampleActiveDB : DB := { urls := [sampleURL], clicks := [] }

/-- A store in which every short code the generator will ever produce is
already taken: the stream is constantly "aaaaaa" and a row with that code
exists (active or not — the existence check ignores `is_active`). -/
def collidingDB : DB :=
  { urls := [{ id := 1, original_url := "https://a.example/", short_code := "aaaaaa",
               created_at := 0, click_count := 0, is_active := true, creator_ip := "" }],
    clicks := [] }

/-- A store with a deactivated row that still has recorded click events. -/
def deactivatedWithClicksDB : DB :=
  { urls := [{ id := 1, original_url := "https://d.example/", short_code := "dead01",
               created_at := 0, click_count := 2, is_active := false, creator_ip := "" }],
    clicks := [{ id := 1, short_code := "dead01", clicked_at := 50,
                 ip_address := "1.1.1.1", user_agent := "Firefox 1", referer := "",
                 country := "Unknown", city := "Unknown" },
               { id := 2, short_code := "dead01", clicked_at := 60,
                 ip_address := "2.2.2.2", user_agent := "Chrome 2", referer := "",
                 country := "Unknown", city := "Unknown" }] }

/-- Empty store, and the store/row produced by one generated create. -/
def emptyDB : DB := { urls := [], clicks := [] }

def createdURL : URL :=
  { id := 1, original_url := "https://e.example/", short_code := "abc123",
    created_at := 5, click_count := 0, is_active := true, creator_ip := "7.7.7.7" }

def createdDB : DB := { urls := [createdURL], clicks := [] }

lemma firstWithCode_eq_none {db : DB} {c : String}
    (h : ∀ u ∈ db.urls, u.short_code ≠ c) : firstWithCode db c = none := by
  unfold firstWithCode
  rw [List.find?_eq_none]
  intro u hu
  simpa using h u hu

lemma firstWithCode_not_isSome {db : DB} {c : String}
    (h : ¬ (firstWithCode db c).isSome = true) :
    ∀ u ∈ db.urls, u.short_code ≠ c := by
  intro u hu hc
  apply h
  unfold firstWithCode
  rw [List.find?_isSome]
  exact ⟨u, hu, by simp [hc]⟩

lemma genLoop_fresh {db : DB} {gen : Nat → String} :
    ∀ {k fuel : Nat} {c : String}, genLoop db gen k fuel = some c →
      ∀ u ∈ db.urls, u.short_code ≠ c := by
  intro k fuel
  induction fuel generalizing k with
  | zero => intro c h; simp [genLoop] at h
  | succ n ih =>
    intro c h
    unfold genLoop at h
    by_cases hs : (firstWithCode db (gen k)).isSome = true
    · rw [if_pos hs] at h
      exact ih h
    · rw [if_neg hs] at h
      obtain rfl : gen k = c := by simpa using h
      exact firstWithCode_not_isSome hs

/-- What a successful `create_short_url` call guarantees: the new row is
appended, clicks are untouched, the row starts inactive-free with zero
clicks, and its code was not present in the store before the call. -/
lemma create_ok_spec {v : String → Bool} {gen : Nat → String} {fuel : Nat}
    {now : Int} {db : DB} {url : String} {cc : Option String} {ip : String}
    {db' : DB} {u : URL}
    (h : create_short_url v gen fuel now db url cc ip = .ok db' u) :
    db'.urls = db.urls ++ [u] ∧ db'.clicks = db.clicks ∧
    u.click_count = 0 ∧ u.is_active = true ∧ u.original_url = url ∧
    ∀ x ∈ db.urls, x.short_code ≠ u.short_code := by
  unfold create_short_url at h
  by_cases hv : (!(v url)) = true
  · rw [if_pos hv] at h; cases h
  · rw [if_neg hv] at h
    by_cases hcc : pyTruthy cc = true
    · rw [if_pos hcc] at h
      by_cases hex : (firstWithCode db (cc.getD "")).isSome = true
      · rw [if_pos hex] at h; cases h
      · rw [if_neg hex] at h
        cases h
        refine ⟨rfl, rfl, rfl, rfl, rfl, ?_⟩
        exact firstWithCode_not_isSome hex
    · rw [if_neg hcc] at h
      cases hfc : findFreshCode db gen fuel with
      | none => rw [hfc] at h; cases h
      | some c =>
        rw [hfc] at h
        cases h
        refine ⟨rfl, rfl, rfl, rfl, rfl, ?_⟩
        exact genLoop_fresh hfc

lemma applyCreate_codesNodup {v : String → Bool} {db : DB} (r : CreateReq)
    (h : codesNodup db) : codesNodup (applyCreate v db r) := by
  unfold applyCreate
  cases hc : create_short_url v r.gen r.fuel r.now db r.original_url
      r.custom_code r.creator_ip with
  | ok db' u =>
    obtain ⟨hurls, -, -, -, -, hfresh⟩ := create_ok_spec hc
    unfold codesNodup at h ⊢
    rw [hurls, List.map_append, List.nodup_append]
    refine ⟨h, List.nodup_singleton _, ?_⟩
    intro a ha hb
    simp only [List.map_cons, List.map_nil, List.mem_singleton] at hb
    subst hb
    obtain ⟨x, hx, hxc⟩ := List.mem_map.mp ha
    exact hfresh x hx hxc
  | invalidUrl => exact h
  | codeConflict => exact h
  | loopNotDone => exact h

/-- C1: any sequence of create operations preserves distinctness of all
stored short codes (active or not). -/
theorem C1_short_code_unique (v : String → Bool) (db : DB)
    (reqs : List CreateReq) (h : codesNodup db) :
    codesNodup (runCreates v db reqs) := by
  induction reqs generalizing db with
  | nil => exact h
  | cons r rs ih =>
    exact ih _ (applyCreate_codesNodup r h)

theorem C1_short_code_unique_witness :
    codesNodup sampleInactiveDB ∧
    codesNodup (runCreates (fun _ => true) sampleInactiveDB sampleReqs) :=
  ⟨by simp [codesNodup, sampleInactiveDB],
   C1_short_code_unique (fun _ => true) sampleInactiveDB sampleReqs
     (by simp [codesNodup, sampleInactiveDB])⟩

/-- C3: `get_url_by_code` succeeds exactly when an active row with the code
exists, and an absent or deactivated code yields exactly the 404
`HTTPException` from the redirect endpoint — the identical response value
in both cases. -/
theorem C3_lookup_iff_active (db : DB) (c : String) (parseUA : String → String)
    (now : Int) (tr : Bool) (ip ua ref : String) :
    ((get_url_by_code db c).isSome ↔
      ∃ u ∈ db.urls, u.short_code = c ∧ u.is_active = true) ∧
    (get_url_by_code db c = none ↔
      redirect_url parseUA now tr db c ip ua ref = (db, .notFound404)) := by
  constructor
  · unfold get_url_by_code
    rw [List.find?_isSome]
    constructor
    · rintro ⟨u, hu, hp⟩
      simp only [Bool.and_eq_true, beq_iff_eq] at hp
      exact ⟨u, hu, hp.1, hp.2⟩
    · rintro ⟨u, hu, h1, h2⟩
      exact ⟨u, hu, by simp [h1, h2]⟩
  · constructor
    · intro h
      unfold redirect_url
      rw [h]
    · intro h
      unfold redirect_url at h
      cases hc : get_url_by_code db c with
      | none => rfl
      | some u => rw [hc] at h; simp at h

/-- C4: whenever the lookup succeeds, the redirect endpoint responds with a
302 to the stored original URL whether or not the click-recording step
raises — the `except Exception: pass` swallows every tracking failure. -/
theorem C4_redirect_survives_tracking_failure (db : DB) (c : String) (u : URL)
    (parseUA : String → String) (now : Int) (tr : Bool) (ip ua ref : String)
    (h : get_url_by_code db c = some u) :
    (redirect_url parseUA now tr db c ip ua ref).2 = .redirect302 u.original_url := by
  unfold redirect_url
  rw [h]

theorem C4_redirect_survives_tracking_failure_witness :
    (redirect_url (fun s => s) 100 true sampleActiveDB "abc123"
      "1.2.3.4" "UA" "").2 = .redirect302 "https://t.example/" :=
  C4_redirect_survives_tracking_failure sampleActiveDB "abc123" sampleURL
    (fun s => s) 100 true "1.2.3.4" "UA" "" rfl

/-- C8 (code bug): when the limiter was constructed on the normal path
(`redis_available = True`, hence `memory_store` never assigned) and the
Redis pipeline raises at check time, the caught `redis.RedisError` leads
into `_check_memory_rate_limit`, which reads the missing `memory_store`
attribute — the caller observes an uncaught `AttributeError`, not a
process-local admission decision. -/
theorem C8_redis_failure_raises_attribute_error (client_ip : String)
    (current_time : Int) (max_requests : Nat) (window_seconds : Int) :
    check_rate_limit rateLimiterInit .redisError client_ip current_time
      max_requests window_seconds = (rateLimiterInit, .attributeError) := rfl

/-- C10: the analytics endpoint returns 404 whenever no *active* row
carries the code — in particular when a deactivated row exists and its
click events are still stored; those events are unreachable here. -/
theorem C10_analytics_404_on_inactive (now : Int) (db : DB) (c : String)
    (hinactive : ∀ u ∈ db.urls, u.short_code = c → u.is_active = false)
    (_hexists : ∃ u ∈ db.urls, u.short_code = c)
    (_hclicks : ∃ cl ∈ db.clicks, cl.short_code = c) :
    api_get_analytics now db c = .error 404 := by
  unfold api_get_analytics
  have hnone : get_url_by_code db c = none := by
    unfold get_url_by_code
    rw [List.find?_eq_none]
    intro u hu hp
    simp only [Bool.and_eq_true, beq_iff_eq] at hp
    have := hinactive u hu hp.1
    rw [this] at hp
    exact absurd hp.2 (by simp)
  rw [hnone]

theorem C10_analytics_404_on_inactive_witness :
    api_get_analytics 100 deactivatedWithClicksDB "dead01" = .error 404 :=
  C10_analytics_404_on_inactive 100 deactivatedWithClicksDB "dead01"
    (by simp [deactivatedWithClicksDB])
    (by simp [deactivatedWithClicksDB])
    (by simp [deactivatedWithClicksDB])

/-- C6 (code bug): the `while True` generation loop of `create_short_url`
has no retry cap and no internal-error outcome. Against a store already
holding every code the candidate stream will produce, the loop is still
running after `fuel` iterations for *every* `fuel`: the number of attempts
is not bounded by any fixed cap and no internal error is ever raised. -/
theorem C6_generation_loop_unbounded :
    ∀ fuel : Nat,
      create_short_url (fun _ => true) (fun _ => "aaaaaa") fuel 0 collidingDB
        "https://x.example/" none "" = .loopNotDone := by
  have h : ∀ fuel k, genLoop collidingDB (fun _ => "aaaaaa") k fuel = none := by
    intro fuel
    induction fuel with
    | zero => intro k; rfl
    | succ n ih =>
      intro k
      unfold genLoop
      have hp : (firstWithCode collidingDB "aaaaaa").isSome = true := rfl
      simp only [hp, if_true]
      exact ih (k + 1)
  intro fuel
  unfold create_short_url findFreshCode
  rw [h fuel 0]
  rfl

lemma find?_active_of_filter_singleton {l : List URL} {c : String} {u : URL}
    (hf : l.filter (fun x => x.short_code == c) = [u]) (ha : u.is_active = true) :
    l.find? (fun x => x.short_code == c && x.is_active) = some u := by
  induction l with
  | nil => simp at hf
  | cons x xs ih =>
    rw [List.filter_cons] at hf
    by_cases hx : (x.short_code == c) = true
    · rw [if_pos hx] at hf
      injection hf with h1 h2
      subst h1
      simp [hx, ha]
    · rw [if_neg hx] at hf
      simp only [List.find?_cons, hx]
      exact ih hf

lemma get_url_by_code_of_filter_singleton {db : DB} {c : String} {u : URL}
    (hf : db.urls.filter (fun x => x.short_code == c) = [u])
    (ha : u.is_active = true) :
    get_url_by_code db c = some u :=
  find?_active_of_filter_singleton hf ha

lemma bumpFirst_filter {l : List URL} {c : String} {u : URL}
    (hf : l.filter (fun x => x.short_code == c) = [u]) :
    (bumpFirst l c).filter (fun x => x.short_code == c)
      = [{ u with click_count := u.click_count + 1 }] := by
  induction l with
  | nil => simp at hf
  | cons x xs ih =>
    unfold bumpFirst
    rw [List.filter_cons] at hf
    by_cases hx : (x.short_code == c) = true
    · rw [if_pos hx] at hf
      injection hf with h1 h2
      subst h1
      rw [if_pos hx, List.filter_cons,
        if_pos (show (({ x with click_count := x.click_count + 1 } : URL).short_code == c)
          = true from hx), h2]
    · rw [if_neg hx] at hf
      rw [if_neg hx, List.filter_cons, if_neg hx]
      exact ih hf

/-- One successful redirect: response 302 to the stored original URL, one
click row appended, the matching URL row's counter bumped. -/
lemma redirect_step {db : DB} {c : String} {u : URL}
    (parseUA : String → String) (now : Int) (ip ua ref : String)
    (hf : db.urls.filter (fun x => x.short_code == c) = [u])
    (ha : u.is_active = true) :
    redirect_url parseUA now false db c ip ua ref =
      ({ urls := bumpFirst db.urls c,
         clicks := db.clicks ++
           [⟨db.clicks.length + 1, c, now, ip, parseUA ua, ref,
             "Unknown", "Unknown"⟩] },
       .redirect302 u.original_url) := by
  unfold redirect_url
  rw [show get_url_by_code db c = some u from
    get_url_by_code_of_filter_singleton hf ha]
  rfl

lemma redirectN_spec (parseUA : String → String) (now : Int)
    (c ip ua ref : String) :
    ∀ (N : Nat) (db : DB) (u : URL),
      db.urls.filter (fun x => x.short_code == c) = [u] → u.is_active = true →
      (redirectN parseUA now c ip ua ref N db).1.urls.filter
          (fun x => x.short_code == c)
        = [{ u with click_count := u.click_count + N }] ∧
      ((redirectN parseUA now c ip ua ref N db).1.clicks.filter
          (fun x => x.short_code == c)).length
        = (db.clicks.filter (fun x => x.short_code == c)).length + N ∧
      (redirectN parseUA now c ip ua ref N db).2
        = List.replicate N (.redirect302 u.original_url) := by
  intro N
  induction N with
  | zero =>
    intro db u hf ha
    refine ⟨?_, rfl, rfl⟩
    simpa using hf
  | succ n ih =>
    intro db u hf ha
    have hstep := redirect_step parseUA now ip ua ref hf ha
    unfold redirectN
    rw [hstep]
    have hf' : (bumpFirst db.urls c).filter (fun x => x.short_code == c)
        = [{ u with click_count := u.click_count + 1 }] := bumpFirst_filter hf
    have hfilter2 :
        ({ urls := bumpFirst db.urls c,
           clicks := db.clicks ++
             [⟨db.clicks.length + 1, c, now, ip, parseUA ua, ref,
               "Unknown", "Unknown"⟩] } : DB).urls.filter
          (fun x => x.short_code == c)
        = [{ u with click_count := u.click_count + 1 }] := hf'
    obtain ⟨h1, h2, h3⟩ := ih _ { u with click_count := u.click_count + 1 }
      hfilter2 ha
    refine ⟨?_, ?_, ?_⟩
    · dsimp only
      rw [h1]
      have : u.click_count + 1 + n = u.click_count + (n + 1) := by omega
      simp only [this]
    · dsimp only
      rw [h2]
      have hcl :
          (({ urls := bumpFirst db.urls c,
              clicks := db.clicks ++
                [⟨db.clicks.length + 1, c, now, ip, parseUA ua, ref,
                  "Unknown", "Unknown"⟩] } : DB).clicks.filter
            (fun x => x.short_code == c)).length
          = (db.clicks.filter (fun x => x.short_code == c)).length + 1 := by
        simp [List.filter_append]
      rw [hcl]
      omega
    · dsimp only
      rw [h3, List.replicate_succ]

lemma total_clicks_eq (now : Int) (db : DB) (c : String) :
    (get_analytics now db c).total_clicks
      = (db.clicks.filter (fun x => x.short_code == c)).length := by
  unfold get_analytics
  by_cases h : (db.clicks.filter (fun x => x.short_code == c)).isEmpty = true
  · rw [if_pos h]
    rw [List.isEmpty_iff] at h
    rw [h]
    rfl
  · rw [if_neg h]

/-- C2: after a successful create and N redirects against the returned
code (each recording its click), the active row's click counter is N, the
analytics total is N, and every redirect answered 302 to the original URL. -/
theorem C2_click_count_and_analytics_after_redirects
    (v : String → Bool) (gen : Nat → String) (fuel : Nat) (cnow : Int)
    (db₀ : DB) (url : String) (cc : Option String) (cip : String)
    (parseUA : String → String) (now : Int) (ip ua ref : String) (N : Nat)
    (db₁ : DB) (u : URL)
    (hcreate : create_short_url v gen fuel cnow db₀ url cc cip = .ok db₁ u)
    (hclicks : db₀.clicks.filter (fun x => x.short_code == u.short_code) = []) :
    (∃ u', get_url_by_code
        (redirectN parseUA now u.short_code ip ua ref N db₁).1 u.short_code
        = some u' ∧ u'.click_count = N) ∧
    (get_analytics now (redirectN parseUA now u.short_code ip ua ref N db₁).1
        u.short_code).total_clicks = N ∧
    (redirectN parseUA now u.short_code ip ua ref N db₁).2
      = List.replicate N (.redirect302 u.original_url) := by
  obtain ⟨hurls, hclicks1, hcc0, hact, -, hfresh⟩ := create_ok_spec hcreate
  have hf1 : db₁.urls.filter (fun x => x.short_code == u.short_code) = [u] := by
    rw [hurls, List.filter_append]
    have h0 : db₀.urls.filter (fun x => x.short_code == u.short_code) = [] := by
      rw [List.filter_eq_nil_iff]
      intro x hx
      simp [hfresh x hx]
    rw [h0]
    simp
  obtain ⟨h1, h2, h3⟩ := redirectN_spec parseUA now u.short_code ip ua ref N
    db₁ u hf1 hact
  refine ⟨⟨{ u with click_count := u.click_count + N }, ?_, ?_⟩, ?_, h3⟩
  · exact get_url_by_code_of_filter_singleton h1 hact
  · simp [hcc0]
  · rw [total_clicks_eq, h2, hclicks1, hclicks]
    simp [hcc0]

theorem C2_click_count_and_analytics_after_redirects_witness :
    (∃ u', get_url_by_code
        (redirectN (fun s => s) 99 "abc123" "1.1.1.1" "UA" "" 2 createdDB).1
        "abc123" = some u' ∧ u'.click_count = 2) ∧
    (get_analytics 99 (redirectN (fun s => s) 99 "abc123" "1.1.1.1" "UA" ""
        2 createdDB).1 "abc123").total_clicks = 2 ∧
    (redirectN (fun s => s) 99 "abc123" "1.1.1.1" "UA" "" 2 createdDB).2
      = List.replicate 2 (.redirect302 "https://e.example/") :=
  C2_click_count_and_analytics_after_redirects (fun _ => true)
    (fun _ => "abc123") 1 5 emptyDB "https://e.example/" none "7.7.7.7"
    (fun s => s) 99 "1.1.1.1" "UA" "" 2 createdDB createdURL rfl rfl

lemma memStep_eq (w : Int) (m : Nat) (s : List Int) (outs : List Bool)
    (t : Int) :
    memStep w m (s, outs) t
      = (s.filter (fun x => t - w < x) ++ [t],
         outs ++ [decide (m < (s.filter (fun x => t - w < x)).length + 1)]) := by
  simp [memStep, check_memory_rate_limit]

/-- While every store entry and every pending timestamp is inside each
check's trailing window and capacity is not exceeded, every check is
admitted and nothing is pruned. -/
lemma run_admits (w : Int) (m : Nat) :
    ∀ (ts s : List Int) (outs : List Bool),
      (∀ x ∈ s, ∀ t ∈ ts, t - w < x) →
      ts.Pairwise (fun a b => b - w < a) →
      s.length + ts.length ≤ m →
      ts.foldl (memStep w m) (s, outs)
        = (s ++ ts, outs ++ List.replicate ts.length false) := by
  intro ts
  induction ts with
  | nil => intro s outs _ _ _; simp
  | cons t ts' ih =>
    intro s outs hs hp hlen
    rw [List.foldl_cons, memStep_eq]
    have hfs : s.filter (fun x => t - w < x) = s := by
      rw [List.filter_eq_self]
      intro x hx
      exact decide_eq_true (hs x hx t (List.mem_cons_self t ts'))
    rw [hfs]
    have hflag : decide (m < s.length + 1) = false := by
      simp only [decide_eq_false_iff_not]
      simp only [List.length_cons] at hlen
      omega
    rw [hflag]
    rw [List.pairwise_cons] at hp
    have := ih (s ++ [t]) (outs ++ [false])
      (by
        intro x hx t' ht'
        rcases List.mem_append.mp hx with hx1 | hx1
        · exact hs x hx1 t' (List.mem_cons_of_mem t ht')
        · rw [List.mem_singleton] at hx1
          subst hx1
          exact hp.1 t' ht')
      hp.2
      (by simp only [List.length_append, List.length_cons,
            List.length_nil] at hlen ⊢; omega)
    rw [this]
    simp [List.replicate_succ]

/-- C5: from an empty state, `max_requests` checks whose timestamps all
lie within one window are all admitted, one more check still within that
window is rejected with the 429 flag, and once a full window has elapsed
with no further requests the next check is admitted again. -/
theorem C5_window_admission (window : Int) (maxR : Nat) (ts : List Int)
    (tR tA : Int)
    (hlen : ts.length = maxR) (hmax : 1 ≤ maxR)
    (hmono : (ts ++ [tR]).Sorted (fun a b : Int => a ≤ b))
    (hwin : ∀ t ∈ ts ++ [tR], tR - window < t)
    (hpause : tR + window ≤ tA) :
    (run_memory_checks window maxR (ts ++ [tR, tA])).2
      = List.replicate maxR false ++ [true, false] := by
  have htR : ∀ b ∈ ts, b ≤ tR := by
    intro b hb
    exact (List.pairwise_append.mp hmono).2.2 b hb tR (List.mem_singleton_self tR)
  have hPW : ts.Pairwise (fun a b => b - window < a) := by
    refine List.Pairwise.imp_of_mem ?_ (List.pairwise_append.mp hmono).1
    intro a b ha hb hab
    have h1 : tR - window < a := hwin a (List.mem_append_left _ ha)
    have h2 : b ≤ tR := htR b hb
    omega
  unfold run_memory_checks
  have hsplit : ts ++ [tR, tA] = (ts ++ [tR]) ++ [tA] := by simp
  rw [hsplit, List.foldl_append, List.foldl_append]
  have hrun := run_admits window maxR ts [] []
    (by intro x hx; simp at hx) hPW
    (by simp only [List.length_nil]; omega)
  rw [hrun]
  simp only [List.nil_append, List.foldl_cons, List.foldl_nil]
  rw [memStep_eq window maxR ts (List.replicate ts.length false) tR]
  have hfs : ts.filter (fun x => tR - window < x) = ts := by
    rw [List.filter_eq_self]
    intro x hx
    exact decide_eq_true (hwin x (List.mem_append_left _ hx))
  rw [hfs]
  have hflag : decide (maxR < ts.length + 1) = true := by
    rw [hlen]; simp
  rw [hflag]
  rw [memStep_eq window maxR (ts ++ [tR])
    (List.replicate ts.length false ++ [true]) tA]
  have hfs2 : (ts ++ [tR]).filter (fun x => tA - window < x) = [] := by
    rw [List.filter_eq_nil_iff]
    intro x hx
    have hxle : x ≤ tR := by
      rcases List.mem_append.mp hx with h | h
      · exact htR x h
      · rw [List.mem_singleton] at h; omega
    simp only [decide_eq_true_eq]
    omega
  rw [hfs2]
  have hflag2 : decide (maxR < ([] : List Int).length + 1) = false := by
    simp only [List.length_nil, decide_eq_false_iff_not]
    omega
  rw [hflag2]
  simp [hlen]

theorem C5_window_admission_witness :
    (run_memory_checks 10 2 ([0, 1] ++ [2, 12])).2
      = List.replicate 2 false ++ [true, false] :=
  C5_window_admission 10 2 [0, 1] 2 12 rfl (by omega)
    (by simp [List.Sorted])
    (by intro t ht; simp at ht; omega)
    (by omega)

/-- C9 counterexample: with `max_requests = 2`, `window_seconds = 10` and
requests at times 0, 1, 2, 11, the request at time 2 is rejected, and the
request at time 11 — sent only 9 seconds later, without pausing for a full
window — is admitted again, contradicting the claim's "stays rejected
until it pauses for a full window". -/
theorem C9_counterexample :
    (run_memory_checks 10 2 [0, 1, 2, 11]).2 = [false, false, true, false] ∧
    (11 : Int) - 2 < 10 := by
  constructor
  · rfl
  · decide

/-- C9 (amended): every in-memory check prunes and then appends the
current timestamp to the stored list before deciding — the stored result
does not depend on the admission decision at all — and a timestamp stored
by a (possibly rejected) check still counts at any later check whose
trailing window reaches back to it. -/
theorem C9_rejected_requests_counted (reqs : List Int) (t t' window : Int)
    (maxR : Nat) (hlt : t' - window < t) :
    (check_memory_rate_limit reqs t (t - window) maxR).1
      = reqs.filter (fun r => t - window < r) ++ [t] ∧
    t ∈ (check_memory_rate_limit reqs t (t - window) maxR).1.filter
        (fun r => t' - window < r) := by
  refine ⟨rfl, ?_⟩
  rw [List.mem_filter]
  exact ⟨List.mem_append_right _ (List.mem_singleton_self t), decide_eq_true hlt⟩

theorem C9_rejected_requests_counted_witness :
    (check_memory_rate_limit [5] 6 (6 - 10) 0).1
      = [5].filter (fun r => 6 - 10 < r) ++ [6] ∧
    6 ∈ (check_memory_rate_limit [5] 6 (6 - 10) 0).1.filter
        (fun r => 7 - 10 < r) :=
  C9_rejected_requests_counted [5] 6 7 10 0 (by decide)

lemma mem_firstOccs {α : Type} [DecidableEq α] (l : List α) (a : α) :
    a ∈ firstOccs l ↔ a ∈ l := by
  induction l with
  | nil => simp [firstOccs]
  | cons x xs ih =>
    simp only [firstOccs, List.mem_cons, List.mem_filter]
    constructor
    · rintro (rfl | ⟨h1, _⟩)
      · exact .inl rfl
      · exact .inr (ih.mp h1)
    · rintro (rfl | h)
      · exact .inl rfl
      · by_cases hax : a = x
        · exact .inl hax
        · exact .inr ⟨ih.mpr h, by simp [hax]⟩

lemma firstOccs_pairwise_indexOf {α : Type} [DecidableEq α] (l : List α) :
    (firstOccs l).Pairwise (fun a b => l.indexOf a < l.indexOf b) := by
  induction l with
  | nil => simp [firstOccs]
  | cons x xs ih =>
    rw [firstOccs]
    refine List.Pairwise.cons ?_ ?_
    · intro b hb
      rw [List.mem_filter] at hb
      have hbx : b ≠ x := by simpa using hb.2
      rw [List.indexOf_cons_self, List.indexOf_cons_ne _ (Ne.symm hbx)]
      omega
    · refine List.Pairwise.imp_of_mem ?_ (ih.filter _)
      intro a b ha hb hab
      have hax : a ≠ x := by simpa using (List.mem_filter.mp ha).2
      have hbx : b ≠ x := by simpa using (List.mem_filter.mp hb).2
      rw [List.indexOf_cons_ne _ (Ne.symm hax), List.indexOf_cons_ne _ (Ne.symm hbx)]
      omega

lemma counterList_mem {α : Type} [DecidableEq α] {l : List α} {p : α × Nat}
    (h : p ∈ counterList l) : p.1 ∈ l ∧ p.2 = l.count p.1 := by
  unfold counterList at h
  obtain ⟨v, hv, rfl⟩ := List.mem_map.mp h
  exact ⟨(mem_firstOccs l v).mp hv, rfl⟩

lemma counterList_mem_of_mem {α : Type} [DecidableEq α] {l : List α} {v : α}
    (h : v ∈ l) : (v, l.count v) ∈ counterList l := by
  unfold counterList
  exact List.mem_map.mpr ⟨v, (mem_firstOccs l v).mpr h, rfl⟩

lemma counterList_pairwise {α : Type} [DecidableEq α] (l : List α) :
    (counterList l).Pairwise (fun a b => l.indexOf a.1 < l.indexOf b.1) := by
  unfold counterList
  exact List.pairwise_map.mpr (firstOccs_pairwise_indexOf l)

/-- A stable insertion into a sorted-descending list preserves the
"descending counts with original order on ties" invariant, provided the
inserted element originally preceded everything in the list. -/
lemma pairwise_tie_orderedInsert {α : Type} (R : α × Nat → α × Nat → Prop)
    (x : α × Nat) :
    ∀ ys : List (α × Nat), ys.Sorted byCountDesc →
      ys.Pairwise (fun a b => b.2 < a.2 ∨ (a.2 = b.2 ∧ R a b)) →
      (∀ a ∈ ys, R x a) →
      (List.orderedInsert byCountDesc x ys).Pairwise
        (fun a b => b.2 < a.2 ∨ (a.2 = b.2 ∧ R a b)) := by
  intro ys
  induction ys with
  | nil =>
    intro _ _ _
    simp [List.orderedInsert]
  | cons y ys ih =>
    intro hsort hp hx
    rw [List.orderedInsert]
    by_cases hxy : byCountDesc x y
    · rw [if_pos hxy]
      refine List.Pairwise.cons ?_ hp
      intro b hb
      have hb2 : b.2 ≤ x.2 := by
        rcases List.mem_cons.mp hb with rfl | hbm
        · exact hxy
        · exact le_trans (List.rel_of_sorted_cons hsort b hbm) hxy
      rcases lt_or_eq_of_le hb2 with h | h
      · exact .inl h
      · exact .inr ⟨h.symm, hx b hb⟩
    · rw [if_neg hxy]
      refine List.Pairwise.cons ?_
        (ih hsort.of_cons hp.of_cons (fun a ha => hx a (List.mem_cons_of_mem y ha)))
      intro b hb
      rcases (List.mem_orderedInsert byCountDesc).mp hb with rfl | hbm
      · exact .inl (lt_of_not_le hxy)
      · exact (List.pairwise_cons.mp hp).1 b hbm

lemma pairwise_tie_insertionSort {α : Type} (R : α × Nat → α × Nat → Prop) :
    ∀ l : List (α × Nat), l.Pairwise R →
      (List.insertionSort byCountDesc l).Pairwise
        (fun a b => b.2 < a.2 ∨ (a.2 = b.2 ∧ R a b)) := by
  intro l
  induction l with
  | nil => intro _; simp
  | cons x xs ih =>
    intro hR
    rw [List.pairwise_cons] at hR
    rw [List.insertionSort]
    refine pairwise_tie_orderedInsert R x _
      (List.sorted_insertionSort byCountDesc xs) (ih hR.2) ?_
    intro a ha
    exact hR.1 a ((List.perm_insertionSort byCountDesc xs).mem_iff.mp ha)

/-- Shows `Counter.most_common(5)` satisfies the spec's description of the
top-5 tables. -/
lemma topFive_mostCommon {α : Type} [DecidableEq α] (values : List α) :
    TopFiveSpec values (mostCommon 5 values) := by
  have hperm : List.Perm (List.insertionSort byCountDesc (counterList values))
      (counterList values) := List.perm_insertionSort _ _
  have hsorted := List.sorted_insertionSort byCountDesc (counterList values)
  refine ⟨?_, ?_, ?_, ?_⟩
  · exact List.length_take_le 5 _
  · intro p hp
    exact counterList_mem (hperm.subset (List.mem_of_mem_take hp))
  · exact List.Pairwise.sublist (List.take_sublist 5 _)
      (pairwise_tie_insertionSort _ _ (counterList_pairwise values))
  · intro v hv hvout q hq
    have hvs : (v, values.count v) ∈
        List.insertionSort byCountDesc (counterList values) :=
      hperm.mem_iff.mpr (counterList_mem_of_mem hv)
    have hsplit : List.insertionSort byCountDesc (counterList values)
        = (List.insertionSort byCountDesc (counterList values)).take 5 ++
          (List.insertionSort byCountDesc (counterList values)).drop 5 :=
      (List.take_append_drop 5 _).symm
    rw [hsplit] at hvs
    rcases List.mem_append.mp hvs with h | h
    · exact absurd (List.mem_map_of_mem Prod.fst h) hvout
    · rw [hsplit] at hsorted
      exact (List.pairwise_append.mp hsorted).2.2 q hq _ h

/-- The three top-5 fields of `get_analytics` are `mostCommon` over the
truthiness-filtered field values (also through the empty-clicks branch). -/
lemma get_analytics_top_fields (now : Int) (db : DB) (code : String) :
    (get_analytics now db code).top_countries
      = mostCommon 5 (((db.clicks.filter (fun c => c.short_code == code)).map
          (fun c => c.country)).filter (fun s => s != "")) ∧
    (get_analytics now db code).top_referrers
      = mostCommon 5 (((db.clicks.filter (fun c => c.short_code == code)).map
          (fun c => c.referer)).filter (fun s => s != "")) ∧
    (get_analytics now db code).browser_stats
      = mostCommon 5 (((db.clicks.filter (fun c => c.short_code == code)).map
          (fun c => c.user_agent)).filter (fun s => s != "")) := by
  unfold get_analytics
  by_cases h : (db.clicks.filter (fun c => c.short_code == code)).isEmpty = true
  · rw [if_pos h]
    rw [List.isEmpty_iff] at h
    rw [h]
    exact ⟨rfl, rfl, rfl⟩
  · rw [if_neg h]
    exact ⟨rfl, rfl, rfl⟩

/-- C7: each of the three top-5 tables of the analytics summary lists at
most five entries, drawn from the non-empty values of its field over the
code's click events with their exact frequencies, ordered by descending
frequency with ties in first-encountered order, and omitting only values
no more frequent than every listed entry. -/
theorem C7_top_five_tables (now : Int) (db : DB) (code : String) :
    TopFiveSpec (((db.clicks.filter (fun c => c.short_code == code)).map
        (fun c => c.country)).filter (fun s => s != ""))
      (get_analytics now db code).top_countries ∧
    TopFiveSpec (((db.clicks.filter (fun c => c.short_code == code)).map
        (fun c => c.referer)).filter (fun s => s != ""))
      (get_analytics now db code).top_referrers ∧
    TopFiveSpec (((db.clicks.filter (fun c => c.short_code == code)).map
        (fun c => c.user_agent)).filter (fun s => s != ""))
      (get_analytics now db code).browser_stats ∧
    (∀ p ∈ (get_analytics now db code).top_countries, p.1 ≠ "") ∧
    (∀ p ∈ (get_analytics now db code).top_referrers, p.1 ≠ "") ∧
    (∀ p ∈ (get_analytics now db code).browser_stats, p.1 ≠ "") := by
  obtain ⟨h1, h2, h3⟩ := get_analytics_top_fields now db code
  rw [h1, h2, h3]
  refine ⟨topFive_mostCommon _, topFive_mostCommon _, topFive_mostCommon _,
    ?_, ?_, ?_⟩ <;>
  · intro p hp
    have hmem := ((topFive_mostCommon _).2.1 p hp).1
    simpa using (List.mem_filter.mp hmem).2

end Nexus
